import Mathlib

/-!
# Verification of the Catter export core (`src/generate_mod/m_export_fast.py`)

Shallow embedding of the attribute-extraction → encode → dedup → repack
pipeline of `m_export_fast.py`.  Machine floating-point values are modelled
as exact rationals (every concrete value exercised below is exactly
representable in the corresponding IEEE format, and all arithmetic on them
is exact); machine integer stores are modelled by explicit wrap-around
(`Int.emod 256` / `Int.emod 65536`), matching numpy `astype` C-cast
semantics.  Fallible numpy operations (KeyError on a missing dtype field,
IndexError on a malformed slice, ValueError on `lexsort` of an empty key
set) are modelled with `Except String`.
-/

namespace Catter

/-! ## Rounding primitives

`numpy.round` rounds half to even; `astype` to an integer dtype truncates
toward zero and wraps modulo the target width. -/

/-- Round half to even (the rounding of `numpy.round`). -/
def rne (q : ℚ) : ℤ :=
  let f := ⌊q⌋
  let r := q - (f : ℚ)
  if r < 1/2 then f
  else if 1/2 < r then f + 1
  else if 2 ∣ f then f else f + 1

/-- Truncation toward zero (the float→int conversion of `astype`). -/
def truncQ (q : ℚ) : ℤ :=
  if 0 ≤ q then ⌊q⌋ else ⌈q⌉

/-- Wrap an integer to an unsigned 8-bit store (`astype(numpy.uint8)`). -/
def toUint8 (k : ℤ) : ℕ := (k % 256).toNat

/-- Wrap an integer to a signed 8-bit store (`astype(numpy.int8)`). -/
def toInt8 (k : ℤ) : ℤ :=
  if k % 256 < 128 then k % 256 else k % 256 - 256

/-- Wrap an integer to an unsigned 16-bit store (`astype(numpy.uint16)`). -/
def toUint16 (k : ℤ) : ℕ := (k % 65536).toNat

/-! ## Format Codec Library (`BufferDataConverter`, lines 50-64)

The numpy functions act elementwise on an array; we embed the per-component
map. -/

/-- `numpy.round(input_array * 127).astype(numpy.int8)`, per component. -/
def convert_4x_float32_to_r8g8b8a8_snorm (v : ℚ) : ℤ :=
  toInt8 (rne (v * 127))

/-- `numpy.round(input_array * 255).astype(numpy.uint8)`, per component. -/
def convert_4x_float32_to_r8g8b8a8_unorm (v : ℚ) : ℕ :=
  toUint8 (rne (v * 255))

/-- `numpy.round(input_array * 65535).astype(numpy.uint16)`, per component. -/
def convert_4x_float32_to_r16g16b16a16_unorm (v : ℚ) : ℕ :=
  toUint16 (rne (v * 65535))

/-- `numpy.round(input_array * 32767).astype(numpy.uint16)`, per component.
Note the source really does store through `numpy.uint16`, an unsigned
type. -/
def convert_4x_float32_to_r16g16b16a16_snorm (v : ℚ) : ℕ :=
  toUint16 (rne (v * 32767))

/-! ## Spec-side codec definitions

These follow the words of the specification (§4.1) and are compared with
the source-embedded converters above. -/

/-- `clamp(value, lo, hi)` as written in the spec. -/
def clampQ (v lo hi : ℚ) : ℚ := max lo (min v hi)

/-- Spec §4.1: unsigned normalized 8-bit, `round(clamp(value,0,1) * 255)`. -/
def spec_unorm8 (v : ℚ) : ℤ := rne (clampQ v 0 1 * 255)

/-- Spec §4.1: signed normalized 8-bit, `round(clamp(value,-1,1) * 127)`. -/
def spec_snorm8 (v : ℚ) : ℤ := rne (clampQ v (-1) 1 * 127)

/-- Spec §4.1: signed normalized 16-bit, `round(clamp(value,-1,1) * 32767)`,
stored as a signed 16-bit integer. -/
def spec_snorm16 (v : ℚ) : ℤ := rne (clampQ v (-1) 1 * 32767)

/-! ## Vertex Records

A numpy structured record (one per unique vertex) is modelled as an
ordered association list from element name to the list of component
values stored in that element's byte range.  Two records with the same
dtype are byte-equal iff all their stored component values are equal, so
record equality models byte-equality of `tobytes()`. -/

/-- One per-loop / per-unique-vertex structured record. -/
abbrev VertexRecord := List (String × List ℚ)

/-- Field access `val[name]` on a structured record; `none` models the
numpy `KeyError` raised when the dtype has no such field. -/
def getAttr : VertexRecord → String → Option (List ℚ)
  | [], _ => none
  | (k, v) :: rest, n => if k = n then some v else getAttr rest n

/-- Field update `val[name] = vals` on a structured record (dtype field
names are unique, so replacing the first matching field models the numpy
assignment). -/
def setAttr : VertexRecord → String → List ℚ → VertexRecord
  | [], _, _ => []
  | (k, w) :: rest, n, vals =>
    if k = n then (k, vals) :: rest else (k, w) :: setAttr rest n vals

/-- Read a field as a 3-component vector.  `none` models either the
`KeyError` for a missing field or the broadcast `ValueError` numpy raises
when the field's component count is not 3. -/
def getVec3 (r : VertexRecord) (n : String) : Option (ℚ × ℚ × ℚ) :=
  match getAttr r n with
  | some (x :: y :: z :: []) => some (x, y, z)
  | _ => none

/-- `mapOpt f l = some l'` iff `f` succeeds on every element; models a
sequence of numpy field accesses that raises on the first failure. -/
def mapOpt {α β : Type} (f : α → Option β) : List α → Option (List β)
  | [] => some []
  | a :: as =>
    match f a, mapOpt f as with
    | some b, some bs => some (b :: bs)
    | _, _ => none

/-! ## Recompute passes (`BufferDataConverter`, lines 66-202)

Vector arithmetic for the passes.  Division of a rational by zero yields
zero in Lean; this coincides exactly with the source's NaN guard
(`normalized_normals[numpy.isnan(normalized_normals)] = 0`): the division
`accumulated / norm` produces NaN exactly when the accumulated vector is
the zero vector, and those NaN entries are overwritten with 0. -/

def vec3Add (a b : ℚ × ℚ × ℚ) : ℚ × ℚ × ℚ :=
  (a.1 + b.1, a.2.1 + b.2.1, a.2.2 + b.2.2)

def vec3Zero : ℚ × ℚ × ℚ := (0, 0, 0)

def vec3DivScalar (v : ℚ × ℚ × ℚ) (c : ℚ) : ℚ × ℚ × ℚ :=
  (v.1 / c, v.2.1 / c, v.2.2 / c)

def normSq (v : ℚ × ℚ × ℚ) : ℚ := v.1 ^ 2 + v.2.1 ^ 2 + v.2.2 ^ 2

/-- Exact model of the real square root used by `numpy.linalg.norm`:
returns the exact rational square root when one exists (in particular
`ratSqrt 0 = 0`), and `0` otherwise.  Every theorem below either takes the
guarded zero branch or evaluates it at a perfect square, so the value at
non-square inputs is never relied upon. -/
def ratSqrt (q : ℚ) : ℚ :=
  let n := Nat.sqrt q.num.toNat
  let d := Nat.sqrt q.den
  if (n * n : ℤ) = q.num ∧ d * d = q.den then (n : ℚ) / (d : ℚ) else 0

/-- The group of records sharing a `POSITION` byte pattern: lines 96-108
sort records by position and partition at position changes, so a group is
exactly the records whose `POSITION` field equals a given value.  (Sums
over the lexsorted groups equal sums over this filter because rational
addition is exact and commutative; the float additions the source
performs are exact at every input exercised below.) -/
def positionGroup (recs : List VertexRecord) (p : List ℚ) : List VertexRecord :=
  recs.filter fun r => getAttr r "POSITION" = some p

/-- `numpy.add.reduceat` over a position group: the sum of the group
members' `NORMAL` vectors. -/
def groupNormalSum (recs : List VertexRecord) (p : List ℚ) : ℚ × ℚ × ℚ :=
  (positionGroup recs p).foldl
    (fun acc r => vec3Add acc ((getVec3 r "NORMAL").getD vec3Zero)) vec3Zero

/-- Lines 110-112: normalize the accumulated normal, with NaN entries
(arising exactly when the accumulated vector is zero) replaced by 0. -/
def guardedNormalize (s : ℚ × ℚ × ℚ) : ℚ × ℚ × ℚ :=
  vec3DivScalar s (ratSqrt (normSq s))

/-- The per-record tangent update of lines 119-130: replace
`TANGENT.xyz` with the guarded-normalized sum of the record's position
group's normals, and `TANGENT.w` with `-1` when the original `w` was
nonnegative, `+1` otherwise. -/
def retangent_record (indexed_vertices : List VertexRecord)
    (r : VertexRecord) : VertexRecord :=
  let p := (getAttr r "POSITION").getD []
  let nn := guardedNormalize (groupNormalSum indexed_vertices p)
  let w := ((getAttr r "TANGENT").bind fun t => t.get? 3).getD 0
  setAttr r "TANGENT" [nn.1, nn.2.1, nn.2.2, if 0 ≤ w then -1 else 1]

/-- `BufferDataConverter.average_normal_tangent` (lines 67-134).

`cfgRecalc` models `GenerateModConfig.recalculate_tangent()` and
`objRecalc` models `obj.get("3DMigoto:RecalculateTANGENT", False)`.
The `Except` failures model, in source order: the `KeyError` from
`val['POSITION']` (line 93), the `KeyError`/broadcast error from
`val['NORMAL']` (line 94), the `ValueError` from `numpy.lexsort` on an
empty key set (line 97), and the `KeyError`/`IndexError` from
`vb['TANGENT'][:, 3]` (line 126). -/
def average_normal_tangent (cfgRecalc objRecalc : Bool)
    (orderedFullElementList : List String)
    (indexed_vertices : List VertexRecord) :
    Except String (List VertexRecord) :=
  if "TANGENT" ∉ orderedFullElementList then .ok indexed_vertices
  else if !(cfgRecalc || objRecalc) then .ok indexed_vertices
  else
    match mapOpt (fun r => getAttr r "POSITION") indexed_vertices with
    | none => .error "KeyError: POSITION"
    | some _ =>
      match mapOpt (fun r => getVec3 r "NORMAL") indexed_vertices with
      | none => .error "KeyError: NORMAL"
      | some _ =>
        if indexed_vertices.isEmpty then
          .error "ValueError: need sequence of keys with len greater than 0 in lexsort"
        else
          match mapOpt
              (fun r => (getAttr r "TANGENT").bind (fun t => t.get? 3))
              indexed_vertices with
          | none => .error "KeyError: TANGENT"
          | some _ =>
            .ok (indexed_vertices.map (retangent_record indexed_vertices))

/-- Byte mapping of line 182:
`((average_normals + 1) / 2 * 255).astype(numpy.uint8)` — truncation
toward zero, wrapped to the unsigned 8-bit store. -/
def color_component_store (x : ℚ) : ℕ := toUint8 (truncQ ((x + 1) / 2 * 255))

/-- The per-record color update of lines 185-199: `color` starts as
`[0, 0, 0, original alpha]`, rgb is overwritten with the byte-mapped mean
normal of the record's position group when the group count is positive,
and the list is stored through `numpy.array(..., dtype=numpy.uint8)`. -/
def recolor_record (indexed_vertices : List VertexRecord)
    (r : VertexRecord) : VertexRecord :=
  let p := (getAttr r "POSITION").getD []
  let cnt := (positionGroup indexed_vertices p).length
  let avg := vec3DivScalar (groupNormalSum indexed_vertices p) (cnt : ℚ)
  let rgb : List ℚ :=
    if 0 < cnt then
      [(color_component_store avg.1 : ℚ),
       (color_component_store avg.2.1 : ℚ),
       (color_component_store avg.2.2 : ℚ)]
    else [0, 0, 0]
  let alpha := ((getAttr r "COLOR").bind fun c => c.get? 3).getD 0
  setAttr r "COLOR" (rgb ++ [(toUint8 (truncQ alpha) : ℚ)])

/-- `BufferDataConverter.average_normal_color` (lines 136-202).

The `Except` failures model the `KeyError`s from `val['POSITION']`
(line 161), `val['NORMAL']` (line 173, including the broadcast error for
a non-3-component field) and `val['COLOR'][3]` (line 187).  Per record,
`color = [0, 0, 0, original alpha]`, the rgb slice is overwritten with the
byte-mapped arithmetic mean of the position group's normals when the group
count is positive, and the whole list is stored through
`numpy.array(..., dtype=numpy.uint8)`. -/
def average_normal_color (cfgRecalc objRecalc : Bool)
    (orderedFullElementList : List String)
    (indexed_vertices : List VertexRecord) :
    Except String (List VertexRecord) :=
  if "COLOR" ∉ orderedFullElementList then .ok indexed_vertices
  else if !(cfgRecalc || objRecalc) then .ok indexed_vertices
  else
    match mapOpt (fun r => getAttr r "POSITION") indexed_vertices with
    | none => .error "KeyError: POSITION"
    | some _ =>
      match mapOpt (fun r => getVec3 r "NORMAL") indexed_vertices with
      | none => .error "KeyError: NORMAL"
      | some _ =>
        match mapOpt
            (fun r => (getAttr r "COLOR").bind (fun c => c.get? 3))
            indexed_vertices with
        | none => .error "KeyError: COLOR"
        | some _ =>
          .ok (indexed_vertices.map (recolor_record indexed_vertices))

/-! ## Attribute Extractor
(`BufferModel.parse_elementname_ravel_ndarray_dict`, lines 241-411)

Only the branches the claims reach are embedded: the `POSITION` branch
(lines 302-316) and the blend index/weight expansion (lines 266-294). -/

/-- Largest exponent `e` in `[-14, 15]` with `2^e ≤ a` (`-15` when `a` is
below the whole range); this is `⌊log2 a⌋` clamped to the binary16
normal-exponent range, which is all `roundF16` needs. -/
def f16ExpAux : ℕ → ℚ → ℤ
  | 0, _ => -15
  | Nat.succ k, a =>
    if (2 : ℚ) ^ ((k : ℤ) - 14) ≤ a then (k : ℤ) - 14 else f16ExpAux k a

def f16Exp (a : ℚ) : ℤ := f16ExpAux 30 a

/-- Exact model of `astype(numpy.float16)`: round to the nearest binary16
value, ties to even.  Values of magnitude at least 65520 round to
infinity in IEEE; this model saturates at the largest finite binary16
value instead (no theorem below evaluates that branch). -/
def roundF16 (q : ℚ) : ℚ :=
  if q = 0 then 0
  else
    let a := |q|
    let s : ℚ := if q < 0 then -1 else 1
    if 65520 ≤ a then s * 65504
    else
      let g : ℤ := max (f16Exp a - 10) (-24)
      s * (rne (a / 2 ^ g) : ℚ) * 2 ^ g

/-- numpy fancy indexing `xs[i]` with a possibly negative index: negative
indices count from the end; an index out of `[-len, len)` raises
`IndexError` (modelled as `none`). -/
def fancyIndex {α : Type} (xs : List α) (i : ℤ) : Option α :=
  if 0 ≤ i then xs.get? i.toNat
  else if i + (xs.length : ℤ) < 0 then none
  else xs.get? (i + (xs.length : ℤ)).toNat

/-- The `POSITION` branch (lines 302-316): gather `undeformed_co` through
the loop→vertex map; when the element format is `R16G16B16A16_FLOAT`,
downcast to float16 and place into the first three columns of
`numpy.zeros((n, 4))` — the fourth column keeps the zero fill. -/
def extract_position (format : String) (vertex_coords : List (ℚ × ℚ × ℚ))
    (loop_vertex_indices : List ℤ) : Except String (List (List ℚ)) :=
  match mapOpt (fun i => fancyIndex vertex_coords i) loop_vertex_indices with
  | none => .error "IndexError: loop vertex index out of bounds"
  | some positions =>
    if format = "R16G16B16A16_FLOAT" then
      .ok (positions.map fun p =>
        [roundF16 p.1, roundF16 p.2.1, roundF16 p.2.2, 0])
    else
      .ok (positions.map fun p => [p.1, p.2.1, p.2.2])

/-- One entry of a Blender `MeshVertex.groups` collection. -/
structure VertexGroupElement where
  group : ℕ
  weight : ℚ
deriving DecidableEq

/-- Descending-weight comparison used by
`sorted(v.groups, key=lambda x: x.weight, reverse=True)`. -/
def weightGE (a b : VertexGroupElement) : Prop := b.weight ≤ a.weight

instance : DecidableRel weightGE := fun a b =>
  inferInstanceAs (Decidable (b.weight ≤ a.weight))

instance : IsTotal VertexGroupElement weightGE :=
  ⟨fun a b => le_total b.weight a.weight⟩

instance : IsTrans VertexGroupElement weightGE :=
  ⟨fun _ _ _ h1 h2 => le_trans h2 h1⟩

/-- Lines 270-273: the top-4 groups of one vertex, sorted by descending
weight.  (Python's `sorted` is stable, as is `List.insertionSort`, and any
two stable sorts under the same comparison agree.) -/
def sorted_groups_of_vertex (groups : List VertexGroupElement) :
    List VertexGroupElement :=
  (List.insertionSort weightGE groups).take 4

/-- Zero-pad a list to length 4 (the `numpy.zeros((n, 4))` fill of lines
276-283). -/
def padTo4 (xs : List ℚ) : List ℚ :=
  xs.take 4 ++ List.replicate (4 - xs.length) 0

def padTo4Nat (xs : List ℕ) : List ℕ :=
  xs.take 4 ++ List.replicate (4 - xs.length) 0

/-- `all_groups[v]` (lines 276-283): the vertex's top-4 group indices,
zero-padded. -/
def all_groups_entry (v : List VertexGroupElement) : List ℕ :=
  padTo4Nat ((sorted_groups_of_vertex v).map (fun g => g.group))

/-- `all_weights[v]` (lines 276-283): the vertex's top-4 weights,
zero-padded. -/
def all_weights_entry (v : List VertexGroupElement) : List ℚ :=
  padTo4 ((sorted_groups_of_vertex v).map (fun g => g.weight))

/-- Lines 285-294: expand the per-vertex blend data to loop granularity.
`blendindices` starts as zeros and only rows whose loop→vertex index
passes the `valid_mask` bounds check are overwritten. -/
def extract_blendindices (mesh_vertices : List (List VertexGroupElement))
    (loop_vertex_indices : List ℤ) : List (List ℕ) :=
  loop_vertex_indices.map fun i =>
    if 0 ≤ i ∧ i < (mesh_vertices.length : ℤ) then
      all_groups_entry ((mesh_vertices.get? i.toNat).getD [])
    else List.replicate 4 0

/-- Lines 285-294, the weight half. -/
def extract_blendweights (mesh_vertices : List (List VertexGroupElement))
    (loop_vertex_indices : List ℤ) : List (List ℚ) :=
  loop_vertex_indices.map fun i =>
    if 0 ≤ i ∧ i < (mesh_vertices.length : ℤ) then
      all_weights_entry ((mesh_vertices.get? i.toNat).getD [])
    else List.replicate 4 0

/-! ## Dedup & Buffer Builder (`BufferModel.calc_index_vertex_buffer`,
lines 416-456) -/

/-- Index of the first occurrence of a record among the insertion-ordered
unique records (the id an `OrderedDict.setdefault` lookup would return). -/
def lookupIdx (r : VertexRecord) : List VertexRecord → Option ℕ
  | [] => none
  | x :: xs => if x = r then some 0 else (lookupIdx r xs).map (· + 1)

/-- The `OrderedDict.setdefault` traversal of lines 431-434, folded over
the flattened loop sequence: returns the insertion-ordered unique records
(the keys of `indexed_vertices`) and the flattened Index Buffer. -/
def build_indexed_vertices_ib (uniq : List VertexRecord) :
    List VertexRecord → List VertexRecord × List ℕ
  | [] => (uniq, [])
  | r :: rest =>
    match lookupIdx r uniq with
    | some i =>
      let s := build_indexed_vertices_ib uniq rest
      (s.1, i :: s.2)
    | none =>
      let s := build_indexed_vertices_ib (uniq ++ [r]) rest
      (s.1, uniq.length :: s.2)

/-- The Vertex Layout Schema: the ordered element list with each element's
category, as `D3D11GameType.OrderedFullElementList` paired with each
element's category name.  (The class itself lives outside `src/`; only the
fields this module reads are modelled.) -/
structure D3D11GameType where
  elements : List (String × String)

def D3D11GameType.orderedFullElementList (gt : D3D11GameType) : List String :=
  gt.elements.map Prod.fst

/-- Category names in first-seen element order (the iteration order of
`CategoryStrideDict`). -/
def D3D11GameType.categoryNames (gt : D3D11GameType) : List String :=
  (gt.elements.map Prod.snd).eraseDups

/-- Modelled from the spec: `get_real_category_stride_dict` and the byte
strides of `D3D11GameType` are defined outside `src/`; per the spec,
`stride(category) = Σ byte-size(element)` over the category's elements in
element order, so at the component-value level the byte slice
`data_matrix[:, offset : offset + stride]` of a record holds exactly the
values of that category's elements in element order. -/
def categorySlice (gt : D3D11GameType) (c : String) (r : VertexRecord) :
    List ℚ :=
  (gt.elements.filter fun e => e.2 = c).flatMap fun e => (getAttr r e.1).getD []

/-- Lines 443-455: the per-category flat buffers, concatenated in unique
record (id) order. -/
def category_buffer_dict (gt : D3D11GameType) (recs : List VertexRecord) :
    List (String × List ℚ) :=
  gt.categoryNames.map fun c => (c, recs.flatMap fun r => categorySlice gt c r)

/-- `BufferModel.calc_index_vertex_buffer` (lines 416-456): dedup the
per-loop records in triangle/loop traversal order, run both recompute
passes on the unique records, then build the category buffers.
`data_matrix = numpy.array([...])` is 1-dimensional when the unique record
list is empty, so the 2-dimensional slice `data_matrix[:, a:b]` raises
`IndexError` in that case. -/
def calc_index_vertex_buffer (cfgT objT cfgC objC : Bool)
    (gt : D3D11GameType) (polys : List (List VertexRecord)) :
    Except String (List ℕ × List (String × List ℚ)) :=
  let loops := polys.flatten
  let s := build_indexed_vertices_ib [] loops
  match average_normal_tangent cfgT objT gt.orderedFullElementList s.1 with
  | .error e => .error e
  | .ok iv1 =>
    match average_normal_color cfgC objC gt.orderedFullElementList iv1 with
    | .error e => .error e
    | .ok iv2 =>
      if iv2.isEmpty then
        .error "IndexError: too many indices for 1-dimensional data_matrix"
      else
        .ok (s.2, category_buffer_dict gt iv2)

/-! ### Structural helper lemmas -/

theorem getAttr_setAttr_some : ∀ (r : VertexRecord) (n : String)
    (x v : List ℚ), getAttr r n = some x →
    getAttr (setAttr r n v) n = some v
  | [], n, x, v, h => by simp [getAttr] at h
  | (k, w) :: rest, n, x, v, h => by
    by_cases hk : k = n
    · simp [getAttr, setAttr, hk]
    · simp only [getAttr, setAttr, if_neg hk] at h ⊢
      exact getAttr_setAttr_some rest n x v h

theorem mapOpt_isSome_of_forall {α β : Type} (f : α → Option β) :
    ∀ l : List α, (∀ a ∈ l, (f a).isSome) → (mapOpt f l).isSome
  | [], _ => by simp [mapOpt]
  | a :: as, h => by
    have ha := h a (by simp)
    have hrest := mapOpt_isSome_of_forall f as fun b hb => h b (by simp [hb])
    rcases hfa : f a with _ | b
    · rw [hfa] at ha
      simp at ha
    · rcases hro : mapOpt f as with _ | bs
      · rw [hro] at hrest
        simp at hrest
      · simp [mapOpt, hfa, hro]

/-- The recompute passes are the identity when both configuration gates
are off (the `allow_calc` early return). -/
theorem average_normal_tangent_noflags (els : List String)
    (l : List VertexRecord) :
    average_normal_tangent false false els l = .ok l := by
  unfold average_normal_tangent
  split
  · rfl
  · simp

theorem average_normal_color_noflags (els : List String)
    (l : List VertexRecord) :
    average_normal_color false false els l = .ok l := by
  unfold average_normal_color
  split
  · rfl
  · simp

/-- The NaN guard on a zero accumulated normal yields the zero vector:
`0 / x = 0` componentwise, matching `isnan → 0` in the source. -/
theorem guardedNormalize_zero : guardedNormalize vec3Zero = vec3Zero := by
  simp [guardedNormalize, vec3Zero, normSq, vec3DivScalar]

/-- `‖(0,0,2)‖ = √4 = 2` — the only nonzero norm any concrete evaluation
below needs. -/
theorem ratSqrt_four : ratSqrt 4 = 2 := by
  have h4 : ((4 : ℚ)).num = 4 := by norm_num
  have h4d : ((4 : ℚ)).den = 1 := by norm_num
  have ht : Int.toNat 4 = 4 := rfl
  have hs : Nat.sqrt 4 = 2 := by norm_num
  unfold ratSqrt
  rw [h4, h4d, ht, hs]
  norm_num

/-! ### Basic bounds for `rne` -/

theorem floor_le_rne (q : ℚ) : ⌊q⌋ ≤ rne q := by
  unfold rne
  dsimp only
  split
  · exact le_refl _
  · split
    · exact le_of_lt (lt_add_one _)
    · split
      · exact le_refl _
      · exact le_of_lt (lt_add_one _)

theorem rne_le_ceil (q : ℚ) : rne q ≤ ⌈q⌉ := by
  unfold rne
  dsimp only
  have hfc : ⌊q⌋ ≤ ⌈q⌉ := Int.floor_le_ceil q
  have hlt : (1:ℚ)/2 ≤ q - (⌊q⌋ : ℚ) → ⌊q⌋ + 1 ≤ ⌈q⌉ := by
    intro h
    have : (⌊q⌋ : ℚ) < q := by linarith [Int.floor_le q]
    exact (Int.add_one_le_ceil_iff).mpr this
  split
  · exact hfc
  · rename_i h1
    push_neg at h1
    split
    · exact hlt h1
    · split
      · exact hfc
      · exact hlt h1

theorem rne_intCast (n : ℤ) : rne (n : ℚ) = n := by
  have h1 := floor_le_rne (n : ℚ)
  have h2 := rne_le_ceil (n : ℚ)
  rw [Int.floor_intCast] at h1
  rw [Int.ceil_intCast] at h2
  omega

theorem rne_le_of_le {q : ℚ} {b : ℤ} (h : q ≤ b) : rne q ≤ b := by
  have := rne_le_ceil q
  have : ⌈q⌉ ≤ b := Int.ceil_le.mpr h
  omega

theorem le_rne_of_le {q : ℚ} {a : ℤ} (h : (a : ℚ) ≤ q) : a ≤ rne q := by
  have h1 := floor_le_rne q
  have h2 : a ≤ ⌊q⌋ := Int.le_floor.mpr h
  omega

/-! ### Helper identities for the wrap-around stores -/

theorem toUint8_eq_toNat {k : ℤ} (h0 : 0 ≤ k) (h1 : k < 256) :
    (toUint8 k : ℤ) = k := by
  unfold toUint8
  omega

theorem toInt8_eq {k : ℤ} (h0 : -128 ≤ k) (h1 : k < 128) : toInt8 k = k := by
  unfold toInt8
  split <;> omega

theorem toUint16_eq_emod (k : ℤ) : (toUint16 k : ℤ) = k % 65536 := by
  unfold toUint16
  omega

theorem clampQ_eq_of_mem {v lo hi : ℚ} (h0 : lo ≤ v) (h1 : v ≤ hi) :
    clampQ v lo hi = v := by
  unfold clampQ
  rw [min_eq_left h1, max_eq_right h0]

/-- C3 counterexample: at input `2.0` the 8-bit unsigned-normalized encoder
wraps (`round(2*255) = 510 ≡ 254 (mod 256)`) instead of clamping to 255 as
the claim states. -/
theorem c3_counterexample :
    (convert_4x_float32_to_r8g8b8a8_unorm 2 : ℤ) ≠ spec_unorm8 2 := by
  norm_num [convert_4x_float32_to_r8g8b8a8_unorm, spec_unorm8, rne, clampQ,
    toUint8]

/-- C3 amended: for inputs inside `[0,1]` the encoder agrees with the
spec formula `round(clamp(v,0,1) * 255)`; out-of-range inputs are *not*
clamped but wrap modulo 256 through the `astype(numpy.uint8)` cast. -/
theorem c3_unorm8_in_range (v : ℚ) (h0 : 0 ≤ v) (h1 : v ≤ 1) :
    (convert_4x_float32_to_r8g8b8a8_unorm v : ℤ) = spec_unorm8 v := by
  unfold convert_4x_float32_to_r8g8b8a8_unorm spec_unorm8
  rw [clampQ_eq_of_mem h0 h1]
  have hlo : (0 : ℤ) ≤ rne (v * 255) := le_rne_of_le (by positivity)
  have hhi : rne (v * 255) ≤ 255 := rne_le_of_le (by push_cast; nlinarith)
  exact toUint8_eq_toNat hlo (by omega)

/-- C3 witness: concrete instance, `0.5` encodes to `128`. -/
theorem c3_unorm8_in_range_witness :
    convert_4x_float32_to_r8g8b8a8_unorm (1/2) = 128 ∧
    spec_unorm8 (1/2) = 128 := by
  have h := c3_unorm8_in_range (1/2) (by norm_num) (by norm_num)
  have hs : spec_unorm8 (1/2) = 128 := by
    norm_num [spec_unorm8, clampQ, rne]
  exact ⟨by omega, hs⟩

/-- C4 counterexample: the 16-bit signed-normalized encoder stores through
`astype(numpy.uint16)`, an unsigned type, so at input `-1.0` it yields the
unsigned value `32769`, not the signed value `-32767` the claim states
(and the claimed clamping is also absent). -/
theorem c4_counterexample :
    (convert_4x_float32_to_r16g16b16a16_snorm (-1) : ℤ) ≠ spec_snorm16 (-1) := by
  norm_num [convert_4x_float32_to_r16g16b16a16_snorm, spec_snorm16, rne,
    clampQ, toUint16]

/-- C4 amended: for inputs inside `[-1,1]` the 8-bit signed-normalized
encoder agrees with the spec formula `round(clamp(v,-1,1) * 127)` as a
signed 8-bit value, while the 16-bit signed-normalized encoder stores the
two's-complement bit pattern of `round(clamp(v,-1,1) * 32767)` in an
*unsigned* 16-bit integer (byte-identical to the signed store); no
clamping is performed, out-of-range inputs wrap. -/
theorem c4_snorm_in_range (v : ℚ) (h0 : -1 ≤ v) (h1 : v ≤ 1) :
    convert_4x_float32_to_r8g8b8a8_snorm v = spec_snorm8 v ∧
    (convert_4x_float32_to_r16g16b16a16_snorm v : ℤ) =
      (spec_snorm16 v) % 65536 := by
  constructor
  · unfold convert_4x_float32_to_r8g8b8a8_snorm spec_snorm8
    rw [clampQ_eq_of_mem h0 h1]
    have hlo : (-127 : ℤ) ≤ rne (v * 127) := le_rne_of_le (by push_cast; nlinarith)
    have hhi : rne (v * 127) ≤ 127 := rne_le_of_le (by push_cast; nlinarith)
    exact toInt8_eq (by omega) (by omega)
  · unfold convert_4x_float32_to_r16g16b16a16_snorm spec_snorm16
    rw [clampQ_eq_of_mem h0 h1]
    exact toUint16_eq_emod _

/-- C4 witness: concrete instance, `-1.0` gives signed `-127` for the
8-bit encoder and bit pattern `32769 = 2^16 - 32767` for the 16-bit one. -/
theorem c4_snorm_in_range_witness :
    convert_4x_float32_to_r8g8b8a8_snorm (-1) = -127 ∧
    convert_4x_float32_to_r16g16b16a16_snorm (-1) = 32769 := by
  have h := c4_snorm_in_range (-1) (by norm_num) (by norm_num)
  obtain ⟨h8, h16⟩ := h
  have hs8 : spec_snorm8 (-1) = -127 := by
    norm_num [spec_snorm8, clampQ, rne]
  have hs16 : spec_snorm16 (-1) = -32767 := by
    norm_num [spec_snorm16, clampQ, rne]
  rw [hs8] at h8
  rw [hs16] at h16
  constructor
  · exact h8
  · omega

/-- C2 counterexample: for a `R16G16B16A16_FLOAT` position element the
extractor places the positions into the first three columns of
`numpy.zeros((n, 4))`, so the constant fourth component is `0.0`, not the
`1.0` the claim states. -/
theorem c2_counterexample :
    extract_position "R16G16B16A16_FLOAT" [(0, 0, 0)] [0] =
      .ok [[0, 0, 0, 0]] ∧ some (0 : ℚ) ≠ some (1 : ℚ) := by
  constructor
  · simp [extract_position, mapOpt, fancyIndex, roundF16]
  · simp

/-- C2 amended: when the `POSITION` element's format implies a
4-component layout (`R16G16B16A16_FLOAT`), the Attribute Extractor
appends a constant fourth component equal to `0.0` (the untouched
`numpy.zeros` fill) to each loop's position before encoding it. -/
theorem c2_position_fourth_component_zero
    (vertex_coords : List (ℚ × ℚ × ℚ)) (loop_vertex_indices : List ℤ)
    (out : List (List ℚ))
    (h : extract_position "R16G16B16A16_FLOAT" vertex_coords
        loop_vertex_indices = .ok out) :
    ∀ rec ∈ out, rec.get? 3 = some 0 := by
  unfold extract_position at h
  rcases hm : mapOpt (fun i => fancyIndex vertex_coords i)
      loop_vertex_indices with _ | ps
  · rw [hm] at h
    exact absurd h (by simp)
  · rw [hm] at h
    simp at h
    subst h
    intro rec hrec
    rw [List.mem_map] at hrec
    obtain ⟨p, _, rfl⟩ := hrec
    rfl

/-- C2 witness: the amended theorem applied to the one-vertex mesh at the
origin. -/
theorem c2_position_fourth_component_zero_witness :
    ([(0 : ℚ), 0, 0, 0] : List ℚ).get? 3 = some 0 :=
  c2_position_fourth_component_zero [(0, 0, 0)] [0] [[0, 0, 0, 0]]
    (by simp [extract_position, mapOpt, fancyIndex, roundF16])
    [0, 0, 0, 0] (by simp)

/-- C5 (code bug): on a mesh with zero loops the unique record list is
empty, `data_matrix = numpy.array([])` is 1-dimensional, and the category
slice `data_matrix[:, a:b]` raises `IndexError` instead of returning the
empty Index Buffer and empty category buffers the claim (and spec §4.4)
promise.  Stated with both recompute flags off, their configuration
default. -/
theorem c5_empty_mesh_index_error (gt : D3D11GameType) :
    calc_index_vertex_buffer false false false false gt [] =
      .error "IndexError: too many indices for 1-dimensional data_matrix" := by
  unfold calc_index_vertex_buffer
  simp [build_indexed_vertices_ib, average_normal_tangent_noflags,
    average_normal_color_noflags]

/-- C9 counterexample: a schema with `TANGENT` but without `NORMAL`, with
tangent recompute enabled, makes the tangent pass raise `KeyError` at
`val['NORMAL']` (line 94) instead of returning its input unchanged as the
claim states. -/
theorem c9_counterexample :
    average_normal_tangent true false ["POSITION", "TANGENT"]
        [[("POSITION", [0, 0, 0]), ("TANGENT", [1, 0, 0, 1])]] =
      .error "KeyError: NORMAL" ∧
    (Except.error "KeyError: NORMAL" ≠
      (.ok [[("POSITION", [(0 : ℚ), 0, 0]), ("TANGENT", [1, 0, 0, 1])]] :
        Except String (List VertexRecord))) := by
  constructor
  · simp [average_normal_tangent, mapOpt, getAttr, getVec3]
  · simp

/-- C9 amended: each pass gates its no-op only on the attribute it
overwrites — the tangent pass returns its input unchanged when `TANGENT`
is absent from the schema, and the color pass when `COLOR` is absent
(absence of `NORMAL` does not trigger the no-op; with the pass enabled
and the written attribute present it raises `KeyError` instead). -/
theorem c9_noop_gates_on_written_attribute (cfgT objT cfgC objC : Bool)
    (els : List String) (recs : List VertexRecord) :
    ("TANGENT" ∉ els →
      average_normal_tangent cfgT objT els recs = .ok recs) ∧
    ("COLOR" ∉ els →
      average_normal_color cfgC objC els recs = .ok recs) := by
  constructor
  · intro hmem
    unfold average_normal_tangent
    rw [if_pos hmem]
  · intro hmem
    unfold average_normal_color
    rw [if_pos hmem]

/-- Inversion for a color pass that actually ran: the output is the
per-record recolor map. -/
theorem average_normal_color_ok_running (cfgC objC : Bool)
    (els : List String) (recs out : List VertexRecord)
    (hmem : "COLOR" ∈ els) (hen : (cfgC || objC) = true)
    (h : average_normal_color cfgC objC els recs = .ok out) :
    out = recs.map (recolor_record recs) := by
  unfold average_normal_color at h
  rw [if_neg (not_not_intro hmem)] at h
  rw [if_neg (by simp [hen])] at h
  rcases h1 : mapOpt (fun r => getAttr r "POSITION") recs with _ | ps
  · rw [h1] at h
    simp at h
  · rw [h1] at h
    rcases h2 : mapOpt (fun r => getVec3 r "NORMAL") recs with _ | ns
    · rw [h2] at h
      simp at h
    · rw [h2] at h
      rcases h3 : mapOpt (fun r => (getAttr r "COLOR").bind fun c =>
          c.get? 3) recs with _ | cs
      · rw [h3] at h
        simp at h
      · rw [h3] at h
        simpa using h.symm

/-- Inversion for the color pass: the output is either the unchanged input
(one of the two no-op gates) or the recolor map. -/
theorem average_normal_color_cases (cfgC objC : Bool) (els : List String)
    (recs out : List VertexRecord)
    (h : average_normal_color cfgC objC els recs = .ok out) :
    out = recs ∨ out = recs.map (recolor_record recs) := by
  by_cases hmem : "COLOR" ∈ els
  · cases hor : cfgC || objC
    · left
      unfold average_normal_color at h
      rw [if_neg (not_not_intro hmem)] at h
      rw [hor] at h
      simp at h
      exact h.symm
    · right
      exact average_normal_color_ok_running cfgC objC els recs out hmem hor h
  · left
    unfold average_normal_color at h
    rw [if_pos hmem] at h
    exact (Except.ok.inj h).symm

/-- Inversion for a tangent pass that actually ran. -/
theorem average_normal_tangent_ok_running (cfgT objT : Bool)
    (els : List String) (recs out : List VertexRecord)
    (hmem : "TANGENT" ∈ els) (hen : (cfgT || objT) = true)
    (h : average_normal_tangent cfgT objT els recs = .ok out) :
    out = recs.map (retangent_record recs) := by
  unfold average_normal_tangent at h
  rw [if_neg (not_not_intro hmem)] at h
  rw [if_neg (by simp [hen])] at h
  rcases h1 : mapOpt (fun r => getAttr r "POSITION") recs with _ | ps
  · rw [h1] at h
    simp at h
  · rw [h1] at h
    rcases h2 : mapOpt (fun r => getVec3 r "NORMAL") recs with _ | ns
    · rw [h2] at h
      simp at h
    · rw [h2] at h
      by_cases hne : recs.isEmpty = true
      · rw [if_pos hne] at h
        simp at h
      · rw [if_neg hne] at h
        rcases h3 : mapOpt (fun r => (getAttr r "TANGENT").bind fun t =>
            t.get? 3) recs with _ | ws
        · rw [h3] at h
          simp at h
        · rw [h3] at h
          simpa using h.symm

theorem truncQ_natCast (a : ℕ) : truncQ ((a : ℕ) : ℚ) = (a : ℤ) := by
  unfold truncQ
  rw [if_pos (by positivity)]
  exact_mod_cast Int.floor_natCast a

theorem toUint8_natCast_lt (a : ℕ) (ha : a < 256) :
    toUint8 ((a : ℕ) : ℤ) = a := by
  unfold toUint8
  omega

/-- C7: the color recompute pass preserves each record's `COLOR` alpha
byte bit-for-bit — for every record whose stored alpha is a uint8 value
(an integer in `[0, 256)`, which is every value a `R8G8B8A8_UNORM` color
field can hold), the output record at the same index carries the same
alpha. -/
theorem c7_color_alpha_preserved (cfgC objC : Bool) (els : List String)
    (recs out : List VertexRecord)
    (h : average_normal_color cfgC objC els recs = .ok out)
    (i : ℕ) (r r2 : VertexRecord)
    (hr : recs.get? i = some r) (hr2 : out.get? i = some r2)
    (a : ℕ) (ha : a < 256)
    (hval : (getAttr r "COLOR").bind (fun c => c.get? 3) = some ((a : ℕ) : ℚ)) :
    (getAttr r2 "COLOR").bind (fun c => c.get? 3) = some ((a : ℕ) : ℚ) := by
  rcases average_normal_color_cases cfgC objC els recs out h with hout | hout
  · rw [hout, hr] at hr2
    obtain rfl := Option.some.inj hr2
    exact hval
  · rw [hout, List.get?_map, hr] at hr2
    obtain rfl := Option.some.inj hr2
    obtain ⟨c, hc, hc3⟩ := Option.bind_eq_some.mp hval
    have halpha : ((getAttr r "COLOR").bind fun c => c.get? 3).getD 0 =
        ((a : ℕ) : ℚ) := by
      rw [hval]
      rfl
    simp only [recolor_record]
    rw [getAttr_setAttr_some r "COLOR" c _ hc]
    rw [halpha]
    have ht : toUint8 (truncQ ((a : ℕ) : ℚ)) = a := by
      rw [truncQ_natCast]
      exact toUint8_natCast_lt a ha
    rw [ht]
    split
    · simp
    · simp

/-- C8: in the tangent recompute pass, on a schema containing `TANGENT`,
with recompute enabled, on a nonempty record list in which every record
carries `POSITION`, a 3-component `NORMAL` and a 4-component `TANGENT`,
the pass succeeds (no crash), and every record whose position group's
summed `NORMAL` vectors form the zero vector gets the zero vector written
into `TANGENT.xyz` (the guarded division produces zeros, never NaN or
infinity, which do not exist in this exact model). -/
theorem c8_tangent_zero_sum_guard (cfgT objT : Bool) (els : List String)
    (recs : List VertexRecord)
    (hmem : "TANGENT" ∈ els) (hen : (cfgT || objT) = true)
    (hne : recs ≠ [])
    (hwf : ∀ r ∈ recs, (getAttr r "POSITION").isSome ∧
      (getVec3 r "NORMAL").isSome ∧
      ((getAttr r "TANGENT").bind (fun t => t.get? 3)).isSome) :
    ∃ out, average_normal_tangent cfgT objT els recs = .ok out ∧
      ∀ (i : ℕ) (r : VertexRecord), recs.get? i = some r →
        ∀ p : List ℚ, getAttr r "POSITION" = some p →
          groupNormalSum recs p = vec3Zero →
          ∃ w : ℚ, out.get? i = some (setAttr r "TANGENT" [0, 0, 0, w]) := by
  have h1 := mapOpt_isSome_of_forall (fun r => getAttr r "POSITION") recs
    fun r hr => (hwf r hr).1
  have h2 := mapOpt_isSome_of_forall (fun r => getVec3 r "NORMAL") recs
    fun r hr => (hwf r hr).2.1
  have h3 := mapOpt_isSome_of_forall
    (fun r => (getAttr r "TANGENT").bind fun t => t.get? 3) recs
    fun r hr => (hwf r hr).2.2
  obtain ⟨ps, hp1⟩ := Option.isSome_iff_exists.mp h1
  obtain ⟨ns, hp2⟩ := Option.isSome_iff_exists.mp h2
  obtain ⟨ws, hp3⟩ := Option.isSome_iff_exists.mp h3
  refine ⟨recs.map (retangent_record recs), ?_, ?_⟩
  · unfold average_normal_tangent
    rw [if_neg (not_not_intro hmem)]
    rw [if_neg (by simp [hen])]
    rw [hp1, hp2, hp3]
    rw [if_neg (by simp [hne])]
  · intro i r hr p hp hzero
    refine ⟨if 0 ≤ ((getAttr r "TANGENT").bind (fun t => t.get? 3)).getD 0
      then -1 else 1, ?_⟩
    rw [List.get?_map, hr]
    show some (retangent_record recs r) = _
    simp only [retangent_record]
    rw [hp]
    simp only [Option.getD_some]
    rw [hzero, guardedNormalize_zero]
    rfl

/-- C7 witness: the alpha byte `77` of a one-record mesh survives the
color recompute pass. -/
theorem c7_color_alpha_preserved_witness :
    (getAttr [("POSITION", [(0 : ℚ), 0, 0]), ("NORMAL", [0, 0, 1]),
        ("COLOR", [127, 127, 255, 77])] "COLOR").bind (fun c => c.get? 3) =
      some ((77 : ℕ) : ℚ) := by
  refine c7_color_alpha_preserved true false ["POSITION", "NORMAL", "COLOR"]
    [[("POSITION", [0, 0, 0]), ("NORMAL", [0, 0, 1]),
      ("COLOR", [9, 9, 9, 77])]]
    [[("POSITION", [0, 0, 0]), ("NORMAL", [0, 0, 1]),
      ("COLOR", [127, 127, 255, 77])]]
    ?_ 0 _ _ rfl rfl 77 (by norm_num) ?_
  · simp [average_normal_color, mapOpt, getAttr, getVec3, recolor_record,
      positionGroup, groupNormalSum, vec3Add, vec3Zero, vec3DivScalar,
      color_component_store, setAttr, toUint8, truncQ] <;>
      norm_num [Int.toNat_ofNat] <;> simp
  · simp [getAttr]

/-- C6 counterexample: a single record with normal `(0, 0, 1)`: the mean
normal has x component `0`, and `((0+1)/2)*255 = 127.5`; the code's
`astype(numpy.uint8)` truncates it to `127`, while the claimed
`round(((x+1)/2)*255)` gives `128`. -/
theorem c6_counterexample :
    average_normal_color true false ["POSITION", "NORMAL", "COLOR"]
        [[("POSITION", [0, 0, 0]), ("NORMAL", [0, 0, 1]),
          ("COLOR", [9, 9, 9, 77])]] =
      .ok [[("POSITION", [0, 0, 0]), ("NORMAL", [0, 0, 1]),
          ("COLOR", [127, 127, 255, 77])]] ∧
    rne (((0 : ℚ) + 1) / 2 * 255) = 128 ∧ (127 : ℚ) ≠ 128 := by
  refine ⟨?_, ?_, by norm_num⟩
  · simp [average_normal_color, mapOpt, getAttr, getVec3, recolor_record,
      positionGroup, groupNormalSum, vec3Add, vec3Zero, vec3DivScalar,
      color_component_store, setAttr, toUint8, truncQ] <;>
      norm_num [Int.toNat_ofNat] <;> simp
  · norm_num [rne]

/-- C6 amended: in the color recompute pass, for every group of records
sharing identical `POSITION` bytes, each component `x` of the arithmetic
mean of the group's `NORMAL` vectors (no renormalization beyond the mean)
is mapped to the byte `trunc(((x+1)/2)*255)` — truncation toward zero via
the `astype(numpy.uint8)` store, not rounding — and written into each
member's `COLOR.rgb`, the original alpha byte kept in `COLOR.a`. -/
theorem c6_color_mean_truncated (cfgC objC : Bool) (els : List String)
    (recs out : List VertexRecord)
    (hmem : "COLOR" ∈ els) (hen : (cfgC || objC) = true)
    (h : average_normal_color cfgC objC els recs = .ok out)
    (i : ℕ) (r : VertexRecord) (hr : recs.get? i = some r)
    (p : List ℚ) (hp : getAttr r "POSITION" = some p)
    (c : List ℚ) (hc : getAttr r "COLOR" = some c) :
    out.get? i = some (setAttr r "COLOR"
      [(color_component_store
          (vec3DivScalar (groupNormalSum recs p)
            ((positionGroup recs p).length : ℚ)).1 : ℚ),
       (color_component_store
          (vec3DivScalar (groupNormalSum recs p)
            ((positionGroup recs p).length : ℚ)).2.1 : ℚ),
       (color_component_store
          (vec3DivScalar (groupNormalSum recs p)
            ((positionGroup recs p).length : ℚ)).2.2 : ℚ),
       (toUint8 (truncQ ((c.get? 3).getD 0)) : ℚ)]) := by
  have hout := average_normal_color_ok_running cfgC objC els recs out hmem
    hen h
  rw [hout, List.get?_map, hr]
  show some (recolor_record recs r) = _
  simp only [recolor_record]
  rw [hp]
  simp only [Option.getD_some]
  have hcnt : 0 < (positionGroup recs p).length := by
    have hrmem : r ∈ recs := List.get?_mem hr
    have hmem2 : r ∈ positionGroup recs p := by
      unfold positionGroup
      rw [List.mem_filter]
      exact ⟨hrmem, by simp [hp]⟩
    exact List.length_pos.mpr (List.ne_nil_of_mem hmem2)
  rw [if_pos hcnt, hc]
  rfl

/-- C6 witness: the amended theorem applied to the one-record mesh of the
counterexample. -/
theorem c6_color_mean_truncated_witness :
    ([[("POSITION", [(0 : ℚ), 0, 0]), ("NORMAL", [0, 0, 1]),
        ("COLOR", [127, 127, 255, 77])]] : List VertexRecord).get? 0 =
      some (setAttr
        [("POSITION", [(0 : ℚ), 0, 0]), ("NORMAL", [0, 0, 1]),
          ("COLOR", [9, 9, 9, 77])] "COLOR"
        [(color_component_store
            (vec3DivScalar (groupNormalSum
              [[("POSITION", [(0 : ℚ), 0, 0]), ("NORMAL", [0, 0, 1]),
                ("COLOR", [9, 9, 9, 77])]] [0, 0, 0])
              ((positionGroup
                [[("POSITION", [(0 : ℚ), 0, 0]), ("NORMAL", [0, 0, 1]),
                  ("COLOR", [9, 9, 9, 77])]] [0, 0, 0]).length : ℚ)).1 : ℚ),
         (color_component_store
            (vec3DivScalar (groupNormalSum
              [[("POSITION", [(0 : ℚ), 0, 0]), ("NORMAL", [0, 0, 1]),
                ("COLOR", [9, 9, 9, 77])]] [0, 0, 0])
              ((positionGroup
                [[("POSITION", [(0 : ℚ), 0, 0]), ("NORMAL", [0, 0, 1]),
                  ("COLOR", [9, 9, 9, 77])]] [0, 0, 0]).length : ℚ)).2.1 : ℚ),
         (color_component_store
            (vec3DivScalar (groupNormalSum
              [[("POSITION", [(0 : ℚ), 0, 0]), ("NORMAL", [0, 0, 1]),
                ("COLOR", [9, 9, 9, 77])]] [0, 0, 0])
              ((positionGroup
                [[("POSITION", [(0 : ℚ), 0, 0]), ("NORMAL", [0, 0, 1]),
                  ("COLOR", [9, 9, 9, 77])]] [0, 0, 0]).length : ℚ)).2.2 : ℚ),
         (toUint8 (truncQ ((([(9 : ℚ), 9, 9, 77] : List ℚ).get? 3).getD 0))
           : ℚ)]) := by
  refine c6_color_mean_truncated true false ["POSITION", "NORMAL", "COLOR"]
    [[("POSITION", [(0 : ℚ), 0, 0]), ("NORMAL", [0, 0, 1]),
      ("COLOR", [9, 9, 9, 77])]]
    [[("POSITION", [(0 : ℚ), 0, 0]), ("NORMAL", [0, 0, 1]),
      ("COLOR", [127, 127, 255, 77])]]
    (by simp) rfl ?_ 0 _ rfl [0, 0, 0] (by simp [getAttr])
    [9, 9, 9, 77] (by simp [getAttr])
  simp [average_normal_color, mapOpt, getAttr, getVec3, recolor_record,
    positionGroup, groupNormalSum, vec3Add, vec3Zero, vec3DivScalar,
    color_component_store, setAttr, toUint8, truncQ] <;>
    norm_num [Int.toNat_ofNat] <;> simp

/-- C8 witness: two coincident-position records with exactly opposite
normals; the pass succeeds and writes a zero tangent xyz. -/
theorem c8_tangent_zero_sum_guard_witness :
    ∃ out, average_normal_tangent true false
        ["POSITION", "NORMAL", "TANGENT"]
        [[("POSITION", [0, 0, 0]), ("NORMAL", [0, 0, 1]),
          ("TANGENT", [1, 0, 0, 1])],
         [("POSITION", [0, 0, 0]), ("NORMAL", [0, 0, -1]),
          ("TANGENT", [1, 0, 0, 1])]] = .ok out ∧
      ∃ w : ℚ, out.get? 0 = some (setAttr
        [("POSITION", [0, 0, 0]), ("NORMAL", [0, 0, 1]),
          ("TANGENT", [1, 0, 0, 1])] "TANGENT" [0, 0, 0, w]) := by
  obtain ⟨out, hok, hprop⟩ := c8_tangent_zero_sum_guard true false
    ["POSITION", "NORMAL", "TANGENT"]
    [[("POSITION", [0, 0, 0]), ("NORMAL", [0, 0, 1]),
      ("TANGENT", [1, 0, 0, 1])],
     [("POSITION", [0, 0, 0]), ("NORMAL", [0, 0, -1]),
      ("TANGENT", [1, 0, 0, 1])]]
    (by simp) rfl (by simp)
    (by
      intro r hr
      simp only [List.mem_cons, List.mem_singleton, List.not_mem_nil,
        or_false] at hr
      rcases hr with rfl | rfl <;> simp [getAttr, getVec3])
  refine ⟨out, hok, hprop 0 _ rfl [0, 0, 0] (by simp [getAttr]) ?_⟩
  simp [groupNormalSum, positionGroup, getAttr, getVec3, vec3Add, vec3Zero]

/-- C9 witness: the amended theorem applied to a position-only schema. -/
theorem c9_noop_gates_on_written_attribute_witness :
    average_normal_tangent true true ["POSITION"]
        [[("POSITION", [(0 : ℚ), 0, 0])]] =
      .ok [[("POSITION", [(0 : ℚ), 0, 0])]] ∧
    average_normal_color true true ["POSITION"]
        [[("POSITION", [(0 : ℚ), 0, 0])]] =
      .ok [[("POSITION", [(0 : ℚ), 0, 0])]] := by
  have h := c9_noop_gates_on_written_attribute true true true true
    ["POSITION"] [[("POSITION", [(0 : ℚ), 0, 0])]]
  exact ⟨h.1 (by simp), h.2 (by simp)⟩

/-- C10: loops whose loop→vertex index fails the `valid_mask` bounds
check `(0 <= idx) & (idx < len(mesh.vertices))` keep the zero-initialized
blend rows; loops with an in-range index receive their vertex's top-4
group indices and weights (sorted by descending weight, zero-padded), and
every selected weight is at least every dropped weight. -/
theorem c10_blend_valid_mask (mesh_vertices : List (List VertexGroupElement))
    (loop_vertex_indices : List ℤ) (i : ℕ)
    (hi : i < loop_vertex_indices.length) :
    (¬ (0 ≤ loop_vertex_indices.get ⟨i, hi⟩ ∧
        loop_vertex_indices.get ⟨i, hi⟩ < (mesh_vertices.length : ℤ)) →
      (extract_blendindices mesh_vertices loop_vertex_indices).get? i =
        some (List.replicate 4 0) ∧
      (extract_blendweights mesh_vertices loop_vertex_indices).get? i =
        some (List.replicate 4 0)) ∧
    (∀ v : List VertexGroupElement,
      (0 ≤ loop_vertex_indices.get ⟨i, hi⟩ ∧
        loop_vertex_indices.get ⟨i, hi⟩ < (mesh_vertices.length : ℤ)) →
      mesh_vertices.get? (loop_vertex_indices.get ⟨i, hi⟩).toNat = some v →
      (extract_blendindices mesh_vertices loop_vertex_indices).get? i =
        some (all_groups_entry v) ∧
      (extract_blendweights mesh_vertices loop_vertex_indices).get? i =
        some (all_weights_entry v) ∧
      ∀ a ∈ sorted_groups_of_vertex v,
        ∀ b ∈ (List.insertionSort weightGE v).drop 4,
          b.weight ≤ a.weight) := by
  have hget : loop_vertex_indices.get? i =
      some (loop_vertex_indices.get ⟨i, hi⟩) := List.get?_eq_get hi
  constructor
  · intro hoob
    unfold extract_blendindices extract_blendweights
    rw [List.get?_map, List.get?_map, hget]
    simp only [Option.map_some']
    rw [if_neg hoob, if_neg hoob]
    exact ⟨rfl, rfl⟩
  · intro v hin hv
    refine ⟨?_, ?_, ?_⟩
    · unfold extract_blendindices
      rw [List.get?_map, hget]
      simp only [Option.map_some']
      rw [if_pos hin, hv]
      rfl
    · unfold extract_blendweights
      rw [List.get?_map, hget]
      simp only [Option.map_some']
      rw [if_pos hin, hv]
      rfl
    · intro a ha b hb
      have hs : List.Sorted weightGE (List.insertionSort weightGE v) :=
        List.sorted_insertionSort weightGE v
      have hsplit := List.take_append_drop 4 (List.insertionSort weightGE v)
      rw [← hsplit] at hs
      exact (List.pairwise_append.mp hs).2.2 a ha b hb

/-- C10 witness: a one-vertex mesh with two weight groups; loop 0 maps to
the vertex and receives its descending-sorted groups, loop 1 has the
out-of-range index `-1` and keeps the zero rows. -/
theorem c10_blend_valid_mask_witness :
    (extract_blendindices [[⟨0, 1/2⟩, ⟨3, 3/4⟩]] [0, -1]).get? 0 =
      some (all_groups_entry [⟨0, 1/2⟩, ⟨3, 3/4⟩]) ∧
    (extract_blendindices [[⟨0, 1/2⟩, ⟨3, 3/4⟩]] [0, -1]).get? 1 =
      some (List.replicate 4 0) ∧
    all_groups_entry [⟨0, 1/2⟩, ⟨3, 3/4⟩] = [3, 0, 0, 0] := by
  have h0 := c10_blend_valid_mask [[⟨0, 1/2⟩, ⟨3, 3/4⟩]] [0, -1] 0
    (by norm_num)
  have h1 := c10_blend_valid_mask [[⟨0, 1/2⟩, ⟨3, 3/4⟩]] [0, -1] 1
    (by norm_num)
  refine ⟨(h0.2 [⟨0, 1/2⟩, ⟨3, 3/4⟩]
      (by
        show (0 : ℤ) ≤ 0 ∧ (0 : ℤ) < ((1 : ℕ) : ℤ)
        norm_num) rfl).1,
    (h1.1 (by
      show ¬ ((0 : ℤ) ≤ -1 ∧ (-1 : ℤ) < ((1 : ℕ) : ℤ))
      intro hcon
      exact absurd hcon.1 (by norm_num))).1, ?_⟩
  have hrep : List.replicate 2 (0 : ℕ) = [0, 0] := rfl
  norm_num [all_groups_entry, sorted_groups_of_vertex, padTo4Nat,
    List.insertionSort, List.orderedInsert, weightGE, hrep]

/-! ### Deduplication invariants -/

theorem lookupIdx_some_get : ∀ (u : List VertexRecord) (r : VertexRecord)
    (i : ℕ), lookupIdx r u = some i → u.get? i = some r
  | [], r, i, h => by simp [lookupIdx] at h
  | x :: xs, r, i, h => by
    by_cases hx : x = r
    · rw [lookupIdx, if_pos hx] at h
      obtain rfl := Option.some.inj h
      simp [hx]
    · rw [lookupIdx, if_neg hx] at h
      obtain ⟨j, hj, rfl⟩ := Option.map_eq_some'.mp h
      simpa using lookupIdx_some_get xs r j hj

theorem lookupIdx_none_not_mem : ∀ (u : List VertexRecord)
    (r : VertexRecord), lookupIdx r u = none → r ∉ u
  | [], _, _ => by simp
  | x :: xs, r, h => by
    by_cases hx : x = r
    · rw [lookupIdx, if_pos hx] at h
      simp at h
    · rw [lookupIdx, if_neg hx] at h
      simp only [Option.map_eq_none'] at h
      have hxs := lookupIdx_none_not_mem xs r h
      simp only [List.mem_cons, not_or]
      exact ⟨fun he => hx he.symm, hxs⟩

theorem lookupIdx_some_lt (u : List VertexRecord) (r : VertexRecord)
    (i : ℕ) (h : lookupIdx r u = some i) : i < u.length := by
  have := lookupIdx_some_get u r i h
  exact List.get?_eq_some.mp this |>.1

/-- The `setdefault` fold invariant: starting from a duplicate-free table
`u`, the final table is duplicate-free and extends `u`, the emitted Index
Buffer has one entry per loop, and each entry indexes the final table at
that loop's record. -/
theorem build_ib_spec : ∀ (loops : List VertexRecord)
    (u : List VertexRecord), u.Nodup →
    (build_indexed_vertices_ib u loops).1.Nodup ∧
    (∃ ext, (build_indexed_vertices_ib u loops).1 = u ++ ext) ∧
    (build_indexed_vertices_ib u loops).2.length = loops.length ∧
    ∀ k : ℕ, k < loops.length →
      ∃ e, (build_indexed_vertices_ib u loops).2.get? k = some e ∧
        (build_indexed_vertices_ib u loops).1.get? e = loops.get? k
  | [], u, hu => by
    refine ⟨hu, ⟨[], by simp [build_indexed_vertices_ib]⟩,
      by simp [build_indexed_vertices_ib], ?_⟩
    intro k hk
    simp at hk
  | r :: rest, u, hu => by
    rcases hl : lookupIdx r u with _ | i
    · have hru : r ∉ u := lookupIdx_none_not_mem u r hl
      have hu2 : (u ++ [r]).Nodup := by
        rw [List.nodup_append]
        exact ⟨hu, List.nodup_singleton r, by simpa using hru⟩
      obtain ⟨hnd, ⟨ext, hext⟩, hlen, hspec⟩ := build_ib_spec rest (u ++ [r]) hu2
      rw [List.append_assoc] at hext
      refine ⟨?_, ⟨[r] ++ ext, ?_⟩, ?_, ?_⟩
      · simp only [build_indexed_vertices_ib, hl]
        exact hnd
      · simp only [build_indexed_vertices_ib, hl]
        exact hext
      · simp only [build_indexed_vertices_ib, hl, List.length_cons]
        rw [hlen]
      · intro k hk
        match k with
        | 0 =>
          refine ⟨u.length, ?_, ?_⟩
          · simp [build_indexed_vertices_ib, hl]
          · simp only [build_indexed_vertices_ib, hl]
            rw [hext, List.get?_append_right (le_refl u.length)]
            simp
        | Nat.succ k2 =>
          have hk2 : k2 < rest.length := by
            simpa using hk
          obtain ⟨e, he, hg⟩ := hspec k2 hk2
          refine ⟨e, ?_, ?_⟩
          · simpa [build_indexed_vertices_ib, hl] using he
          · simpa [build_indexed_vertices_ib, hl] using hg
    · have hi : i < u.length := lookupIdx_some_lt u r i hl
      obtain ⟨hnd, ⟨ext, hext⟩, hlen, hspec⟩ := build_ib_spec rest u hu
      refine ⟨?_, ⟨ext, ?_⟩, ?_, ?_⟩
      · simp only [build_indexed_vertices_ib, hl]
        exact hnd
      · simp only [build_indexed_vertices_ib, hl]
        exact hext
      · simp only [build_indexed_vertices_ib, hl, List.length_cons]
        rw [hlen]
      · intro k hk
        match k with
        | 0 =>
          refine ⟨i, ?_, ?_⟩
          · simp [build_indexed_vertices_ib, hl]
          · simp only [build_indexed_vertices_ib, hl]
            rw [hext, List.get?_append hi]
            simpa using lookupIdx_some_get u r i hl
        | Nat.succ k2 =>
          have hk2 : k2 < rest.length := by
            simpa using hk
          obtain ⟨e, he, hg⟩ := hspec k2 hk2
          refine ⟨e, ?_, ?_⟩
          · simpa [build_indexed_vertices_ib, hl] using he
          · simpa [build_indexed_vertices_ib, hl] using hg

/-- Flattened Index Buffer entries agree exactly when the corresponding
per-loop records agree. -/
theorem build_ib_eq_iff (loops : List VertexRecord) (i j : ℕ)
    (hi : i < loops.length) (hj : j < loops.length) :
    (build_indexed_vertices_ib [] loops).2.get? i =
      (build_indexed_vertices_ib [] loops).2.get? j ↔
      loops.get? i = loops.get? j := by
  obtain ⟨hnd, _, _, hspec⟩ := build_ib_spec loops [] List.nodup_nil
  obtain ⟨e1, he1, hg1⟩ := hspec i hi
  obtain ⟨e2, he2, hg2⟩ := hspec j hj
  rw [he1, he2]
  constructor
  · intro h
    obtain rfl := Option.some.inj h
    rw [← hg1, ← hg2]
  · intro h
    have hgg : (build_indexed_vertices_ib [] loops).1.get? e1 =
        (build_indexed_vertices_ib [] loops).1.get? e2 := by
      rw [hg1, hg2, h]
    have hlt : e1 < (build_indexed_vertices_ib [] loops).1.length := by
      have h1 : loops.get? i = some (loops.get ⟨i, hi⟩) := List.get?_eq_get hi
      rw [h1] at hg1
      exact (List.get?_eq_some.mp hg1).1
    rw [List.get?_inj hlt hnd hgg]

/-- C1 counterexample: one triangle whose three loops hold records
`A, B, A`, where `A` and `B` share `POSITION` and `NORMAL` but differ in
`TANGENT` (both with nonnegative `w`).  Dedup (which the source runs
*before* the recompute passes) assigns ids `0, 1, 0`; the enabled tangent
recompute then overwrites both unique records' `TANGENT` with the same
group value, making the two records with distinct ids byte-equal — so
`IndexBuffer[i] = IndexBuffer[j]` does *not* hold iff the post-recompute
records are byte-equal. -/
theorem c1_counterexample :
    Except.map Prod.fst (calc_index_vertex_buffer true false false false
      ⟨[("POSITION", "Position"), ("NORMAL", "Position"),
        ("TANGENT", "Position")]⟩
      [[[("POSITION", [0, 0, 0]), ("NORMAL", [0, 0, 1]),
         ("TANGENT", [1, 0, 0, 1])],
        [("POSITION", [0, 0, 0]), ("NORMAL", [0, 0, 1]),
         ("TANGENT", [0, 1, 0, 1])],
        [("POSITION", [0, 0, 0]), ("NORMAL", [0, 0, 1]),
         ("TANGENT", [1, 0, 0, 1])]]]) = .ok [0, 1, 0] ∧
    (build_indexed_vertices_ib []
      [[("POSITION", [0, 0, 0]), ("NORMAL", [0, 0, 1]),
        ("TANGENT", [1, 0, 0, 1])],
       [("POSITION", [0, 0, 0]), ("NORMAL", [0, 0, 1]),
        ("TANGENT", [0, 1, 0, 1])],
       [("POSITION", [0, 0, 0]), ("NORMAL", [0, 0, 1]),
        ("TANGENT", [1, 0, 0, 1])]]).1 =
      [[("POSITION", [0, 0, 0]), ("NORMAL", [0, 0, 1]),
        ("TANGENT", [1, 0, 0, 1])],
       [("POSITION", [0, 0, 0]), ("NORMAL", [0, 0, 1]),
        ("TANGENT", [0, 1, 0, 1])]] ∧
    average_normal_tangent true false ["POSITION", "NORMAL", "TANGENT"]
      [[("POSITION", [0, 0, 0]), ("NORMAL", [0, 0, 1]),
        ("TANGENT", [1, 0, 0, 1])],
       [("POSITION", [0, 0, 0]), ("NORMAL", [0, 0, 1]),
        ("TANGENT", [0, 1, 0, 1])]] =
      .ok [[("POSITION", [0, 0, 0]), ("NORMAL", [0, 0, 1]),
        ("TANGENT", [0, 0, 1, -1])],
       [("POSITION", [0, 0, 0]), ("NORMAL", [0, 0, 1]),
        ("TANGENT", [0, 0, 1, -1])]] ∧
    (0 : ℕ) ≠ 1 := by
  refine ⟨?_, ?_, ?_, by norm_num⟩
  · simp [calc_index_vertex_buffer, build_indexed_vertices_ib, lookupIdx,
      average_normal_tangent, average_normal_color, mapOpt, getAttr,
      getVec3, retangent_record, guardedNormalize, groupNormalSum,
      positionGroup, vec3Add, vec3Zero, vec3DivScalar, normSq, setAttr,
      ratSqrt_four, category_buffer_dict, categorySlice,
      D3D11GameType.categoryNames, D3D11GameType.orderedFullElementList,
      List.eraseDups, Except.map] <;> norm_num [ratSqrt_four]
  · simp [build_indexed_vertices_ib, lookupIdx]
  · simp [average_normal_tangent, mapOpt, getAttr, getVec3,
      retangent_record, guardedNormalize, groupNormalSum, positionGroup,
      vec3Add, vec3Zero, vec3DivScalar, normSq, setAttr] <;>
      norm_num [ratSqrt_four]

/-- C1 amended: two loops receive the same Index Buffer entry iff their
*pre-recompute* Vertex Records (as extracted, before the optional
tangent/color passes) are byte-equal: the source deduplicates first
(lines 431-434) and only then runs the recompute passes (lines 440-441)
on the unique records. -/
theorem c1_index_eq_iff_extracted_record_eq (cfgT objT cfgC objC : Bool)
    (gt : D3D11GameType) (polys : List (List VertexRecord))
    (ib : List ℕ) (bufs : List (String × List ℚ))
    (h : calc_index_vertex_buffer cfgT objT cfgC objC gt polys =
      .ok (ib, bufs))
    (i j : ℕ) (hi : i < polys.flatten.length)
    (hj : j < polys.flatten.length) :
    (ib.get? i = ib.get? j ↔
      polys.flatten.get? i = polys.flatten.get? j) := by
  simp only [calc_index_vertex_buffer] at h
  split at h
  · simp at h
  · split at h
    · simp at h
    · split at h
      · simp at h
      · have hpair := Except.ok.inj h
        have hib : (build_indexed_vertices_ib [] polys.flatten).2 = ib :=
          congrArg Prod.fst hpair
        rw [← hib]
        exact build_ib_eq_iff polys.flatten i j hi hj

/-- C1 witness: the amended theorem applied to the triangle of the
counterexample — loops 0 and 2 carry equal records and equal ids. -/
theorem c1_index_eq_iff_extracted_record_eq_witness :
    (([0, 1, 0] : List ℕ).get? 0 = ([0, 1, 0] : List ℕ).get? 2) ↔
      (([[[("POSITION", [(0 : ℚ), 0, 0]), ("NORMAL", [0, 0, 1]),
         ("TANGENT", [1, 0, 0, 1])],
        [("POSITION", [0, 0, 0]), ("NORMAL", [0, 0, 1]),
         ("TANGENT", [0, 1, 0, 1])],
        [("POSITION", [0, 0, 0]), ("NORMAL", [0, 0, 1]),
         ("TANGENT", [1, 0, 0, 1])]]] :
          List (List VertexRecord)).flatten.get? 0 =
        ([[[("POSITION", [(0 : ℚ), 0, 0]), ("NORMAL", [0, 0, 1]),
         ("TANGENT", [1, 0, 0, 1])],
        [("POSITION", [0, 0, 0]), ("NORMAL", [0, 0, 1]),
         ("TANGENT", [0, 1, 0, 1])],
        [("POSITION", [0, 0, 0]), ("NORMAL", [0, 0, 1]),
         ("TANGENT", [1, 0, 0, 1])]]] :
          List (List VertexRecord)).flatten.get? 2) := by
  refine c1_index_eq_iff_extracted_record_eq false false false false
    ⟨[("POSITION", "Position"), ("NORMAL", "Position"),
      ("TANGENT", "Position")]⟩ _ [0, 1, 0]
    (category_buffer_dict
      ⟨[("POSITION", "Position"), ("NORMAL", "Position"),
        ("TANGENT", "Position")]⟩
      [[("POSITION", [0, 0, 0]), ("NORMAL", [0, 0, 1]),
        ("TANGENT", [1, 0, 0, 1])],
       [("POSITION", [0, 0, 0]), ("NORMAL", [0, 0, 1]),
        ("TANGENT", [0, 1, 0, 1])]]) ?_ 0 2 (by norm_num) (by norm_num)
  simp [calc_index_vertex_buffer, build_indexed_vertices_ib, lookupIdx,
    average_normal_tangent_noflags, average_normal_color_noflags]

end Catter
